import Mathlib

/-!
Verification of the smart-office sensor-data generator
(`simulador_smart_office.py`).

Timestamps are modelled as minutes elapsed since an epoch that falls on a
Monday at 00:00 local time, so `weekday`, `hour` and `minute` below agree
with Python's `Timestamp.weekday()` (Monday = 0), `.hour` and `.minute`.
Random draws (`numpy` Gaussian and uniform samples) are modelled as real
numbers supplied by a stream `g : ℕ → ℝ` indexed by draw order; the seeded
generator `np.random.default_rng` is modelled as a pure function from seed
to stream.
-/

namespace SmartOffice

/-- Python weekday of a timestamp (0 = Monday … 6 = Sunday). -/
def weekday (ts : ℕ) : ℕ := ts / 1440 % 7

/-- Hour-of-day of a timestamp. -/
def hour (ts : ℕ) : ℕ := ts % 1440 / 60

/-- Minute-of-hour of a timestamp. -/
def minute (ts : ℕ) : ℕ := ts % 60

/-- `generate_time_index(start, days)`: `pd.date_range(start, start + days,
freq="15T", inclusive="left")`, i.e. the instants `start + 15*i` for
`i < days*96` (96 quarter-hours per day). -/
def generate_time_index (start : ℕ) (days : ℕ) : List ℕ :=
  (List.range (days * 96)).map (fun i => start + 15 * i)

/-- `is_work_hour(ts)`: Monday–Friday and hour in `[8, 18)`. -/
def is_work_hour (ts : ℕ) : Bool :=
  decide (weekday ts < 5 ∧ 8 ≤ hour ts ∧ hour ts < 18)

/-- `is_night(ts)`: hour `≥ 22` or `< 6`. -/
def is_night (ts : ℕ) : Bool :=
  decide (22 ≤ hour ts ∨ hour ts < 6)

lemma length_generate_time_index (start days : ℕ) :
    (generate_time_index start days).length = days * 96 := by
  simp [generate_time_index]

lemma get_generate_time_index (start days : ℕ) (i : ℕ)
    (h : i < (generate_time_index start days).length) :
    (generate_time_index start days).get ⟨i, h⟩ = start + 15 * i := by
  simp [generate_time_index]

/-- Claim C4: for every start instant and day count `D`, the time grid has
exactly `D * 96` entries, consecutive entries differ by exactly 15 minutes
(hence the grid is strictly increasing), the first entry is the start
instant, the end instant `start + D` days is never a member, and `D = 0`
yields the empty sequence. -/
theorem generate_time_index_grid (start days : ℕ) :
    (generate_time_index start days).length = days * 96 ∧
    List.Chain' (fun a b => b = a + 15) (generate_time_index start days) ∧
    List.Chain' (fun a b => a < b) (generate_time_index start days) ∧
    (0 < days → (generate_time_index start days).head? = some start) ∧
    (start + days * 1440) ∉ generate_time_index start days ∧
    generate_time_index start 0 = [] := by
  have hstep : List.Chain' (fun a b => b = a + 15) (generate_time_index start days) := by
    rw [List.chain'_iff_get]
    intro i h
    rw [get_generate_time_index, get_generate_time_index]
    ring
  refine ⟨length_generate_time_index start days, hstep, ?_, ?_, ?_, ?_⟩
  · exact hstep.imp (fun h => by omega)
  · intro hd
    obtain ⟨m, hm⟩ : ∃ m, days * 96 = m + 1 := ⟨days * 96 - 1, by omega⟩
    simp [generate_time_index, hm, List.range_succ_eq_map]
  · simp only [generate_time_index, List.mem_map, List.mem_range]
    rintro ⟨i, hi, hEq⟩
    omega
  · simp [generate_time_index]

/-- Witness for C4 at `start = 0`, `days = 1`. -/
theorem generate_time_index_grid_witness :
    (generate_time_index 0 1).head? = some 0 ∧
    (0 + 1 * 1440) ∉ generate_time_index 0 1 := by
  have h := generate_time_index_grid 0 1
  exact ⟨h.2.2.2.1 (by decide), h.2.2.2.2.1⟩

/-- Claim C10: the work-hour and night classifiers are disjoint — no
timestamp satisfies both, so at most one of the work-hour uplift and the
night setback applies to any temperature sample. -/
theorem is_work_hour_and_is_night_false (ts : ℕ) :
    (is_work_hour ts && is_night ts) = false := by
  simp only [is_work_hour, is_night, Bool.and_eq_false_iff, decide_eq_false_iff_not]
  by_cases h : weekday ts < 5 ∧ 8 ≤ hour ts ∧ hour ts < 18
  · right
    omega
  · left
    exact h

open Real

noncomputable section

/-- Daily sinusoidal temperature baseline: `2.5 * sin(rad - π/2) + 22.5`
where `rad = ((hour*60 + minute) / (24*60)) * 2π` maps the minute-of-day
onto `[0, 2π)`. -/
def baselineTemp (ts : ℕ) : ℝ :=
  2.5 * Real.sin ((((hour ts * 60 + minute ts : ℕ) : ℝ) / (24 * 60)) * (2 * π) - π / 2) +
    22.5

/-- `max(17.0, min(28.0, val))` — the clamp applied to every temperature sample. -/
def clampTemp (x : ℝ) : ℝ := max 17.0 (min 28.0 x)

/-- Round-half-to-even to the nearest integer, as `np.round` does. -/
def roundHalfEven (x : ℝ) : ℤ :=
  if Int.fract x < 1 / 2 then ⌊x⌋
  else if 1 / 2 < Int.fract x then ⌊x⌋ + 1
  else if ⌊x⌋ % 2 = 0 then ⌊x⌋ else ⌊x⌋ + 1

/-- `np.round(x, d)`: round to `d` decimal places, ties to even. -/
def npRound (d : ℕ) (x : ℝ) : ℝ := (roundHalfEven (x * 10 ^ d) : ℝ) / 10 ^ d

/-- One temperature sample: baseline, plus `0.6 + N(0, 0.2)` during work
hours, minus `1.0 + N(0, 0.2)` at night, plus `N(0, 0.3)` always, clamped
to `[17, 28]`. The stream `g` supplies the Gaussian draws starting at
index `k`; the second component is the index of the next unused draw. -/
def tempStep (g : ℕ → ℝ) (ts k : ℕ) : ℝ × ℕ :=
  let d0 : ℝ × ℕ := (baselineTemp ts, k)
  let d1 : ℝ × ℕ := if is_work_hour ts then (d0.1 + (0.6 + g d0.2), d0.2 + 1) else d0
  let d2 : ℝ × ℕ := if is_night ts then (d1.1 - (1.0 + g d1.2), d1.2 + 1) else d1
  (clampTemp (d2.1 + g d2.2), d2.2 + 1)

/-- One illuminance sample: `0` at night (no draw), `500 + N(0, 60)` during
work hours, else `max(0, 50 + N(0, 30))`; the emitted value is floored at
`0`. -/
def luxStep (g : ℕ → ℝ) (ts k : ℕ) : ℝ × ℕ :=
  let b : ℝ × ℕ :=
    if is_night ts then ((0.0 : ℝ), k)
    else if is_work_hour ts then (500 + g k, k + 1)
    else (max 0 (50 + g k), k + 1)
  (max 0.0 b.1, b.2)

/-- One occupancy sample: the base probability follows the weekday/weekend
schedule; on weekends with hour in `[10, 14)` a secondary draw below `0.06`
overrides the probability to `0.7`; the output is `1` iff the final uniform
draw is below the resolved probability. -/
def occStep (g : ℕ → ℝ) (ts k : ℕ) : ℕ × ℕ :=
  let p : ℝ :=
    if weekday ts < 5 then
      if 8 ≤ hour ts ∧ hour ts < 18 then 0.85
      else if (7 ≤ hour ts ∧ hour ts < 8) ∨ (18 ≤ hour ts ∧ hour ts < 19) then 0.35
      else 0.05
    else 0.03
  let q : ℝ × ℕ :=
    if 5 ≤ weekday ts ∧ 10 ≤ hour ts ∧ hour ts < 14 then
      (if g k < 0.06 then 0.7 else p, k + 1)
    else (p, k)
  (if g q.2 < q.1 then 1 else 0, q.2 + 1)

/-- Thread a draw-consuming step over a list of timestamps: returns the
list of sample values and the index of the next unused draw. -/
def mapWithState {α : Type} (f : ℕ → ℕ → α × ℕ) : List ℕ → ℕ → List α × ℕ
  | [], k => ([], k)
  | ts :: l, k =>
    let vk := f ts k
    let rest := mapWithState f l vk.2
    (vk.1 :: rest.1, rest.2)

/-- One output row: columns `timestamp`, `sensor_id`, `valor`. -/
structure Row where
  ts : ℕ
  sensor_id : String
  valor : ℝ

/-- The temperature frame of a room: values rounded to 2 decimals,
labelled `temp_<room>`. -/
def df_temp (room : ℕ) (grid : List ℕ) (g : ℕ → ℝ) (k : ℕ) : List Row :=
  (grid.zip (mapWithState (tempStep g) grid k).1).map
    (fun p => ⟨p.1, "temp_" ++ toString room, npRound 2 p.2⟩)

/-- The illuminance frame of a room: values rounded to 1 decimal,
labelled `lux_<room>`. -/
def df_lux (room : ℕ) (grid : List ℕ) (g : ℕ → ℝ) (k : ℕ) : List Row :=
  (grid.zip (mapWithState (luxStep g) grid k).1).map
    (fun p => ⟨p.1, "lux_" ++ toString room, npRound 1 p.2⟩)

/-- The occupancy frame of a room: integer flags, labelled `occ_<room>`. -/
def df_occ (room : ℕ) (grid : List ℕ) (g : ℕ → ℝ) (k : ℕ) : List Row :=
  (grid.zip (mapWithState (occStep g) grid k).1).map
    (fun p => ⟨p.1, "occ_" ++ toString room, (p.2 : ℝ)⟩)

/-- Index of the first draw not consumed by the temperature pass. -/
def tempEnd (g : ℕ → ℝ) (grid : List ℕ) : ℕ := (mapWithState (tempStep g) grid 0).2

/-- Index of the first draw not consumed by the temperature-then-illuminance
passes. -/
def luxEnd (g : ℕ → ℝ) (grid : List ℕ) : ℕ :=
  (mapWithState (luxStep g) grid (tempEnd g grid)).2

/-- `simulate_for_room`: seed the room's generator with
`seed_base + room_id`, run the temperature pass over the whole grid, then
the illuminance pass, then the occupancy pass, and concatenate the three
frames. `rngOf` models `np.random.default_rng` as a pure function from
seed to draw stream. -/
def simulate_for_room (rngOf : ℕ → ℕ → ℝ) (room_id : ℕ) (grid : List ℕ)
    (seed_base : ℕ) : List Row :=
  let g := rngOf (seed_base + room_id)
  df_temp room_id grid g 0 ++ df_lux room_id grid g (tempEnd g grid) ++
    df_occ room_id grid g (luxEnd g grid)

/-- Sort key of `df.sort_values(["timestamp", "sensor_id"])`: timestamps
first, lexicographic sensor identifier second. -/
def rowLE (a b : Row) : Bool :=
  decide (a.ts < b.ts) || (decide (a.ts = b.ts) && decide (a.sensor_id ≤ b.sensor_id))

/-- `main` after the start instant is fixed: build the 7-day grid, simulate
rooms 1–3 with base seed 2025, concatenate and sort. -/
def mainTable (rngOf : ℕ → ℕ → ℝ) (start : ℕ) : List Row :=
  let time_index := generate_time_index start 7
  let frames := [1, 2, 3].map (fun room => simulate_for_room rngOf room time_index 2025)
  frames.flatten.mergeSort rowLE

/-- `main`: when no start is given, anchor at the most recent Monday 00:00
relative to the current time `now`. -/
def mainModel (rngOf : ℕ → ℕ → ℝ) (now : ℕ) (startArg : Option ℕ) : List Row :=
  let start :=
    match startArg with
    | some s => s
    | none => (now / 1440 - now / 1440 % 7) * 1440
  mainTable rngOf start

end

lemma le_roundHalfEven {n : ℤ} {x : ℝ} (h : (n : ℝ) ≤ x) : n ≤ roundHalfEven x := by
  have hn : n ≤ ⌊x⌋ := Int.le_floor.mpr h
  unfold roundHalfEven
  split_ifs <;> omega

lemma roundHalfEven_le {n : ℤ} {x : ℝ} (h : x ≤ (n : ℝ)) : roundHalfEven x ≤ n := by
  have hf : ⌊x⌋ ≤ n := by
    have h1 : ⌊x⌋ ≤ ⌊(n : ℝ)⌋ := Int.floor_le_floor h
    simpa using h1
  have key : 0 < Int.fract x → ⌊x⌋ + 1 ≤ n := by
    intro hpos
    rcases lt_or_eq_of_le hf with hlt | heq
    · omega
    · exfalso
      have h1 : (⌊x⌋ : ℝ) + Int.fract x = x := Int.floor_add_fract x
      have h2 : ((⌊x⌋ : ℤ) : ℝ) = (n : ℝ) := by exact_mod_cast heq
      linarith
  unfold roundHalfEven
  split_ifs with h1 h2 h3
  · exact hf
  · exact key (by linarith)
  · exact hf
  · exact key (by linarith)

lemma le_npRound (d : ℕ) (a : ℤ) (x : ℝ) (h : (a : ℝ) ≤ x) : (a : ℝ) ≤ npRound d x := by
  have hp : (0 : ℝ) < 10 ^ d := by positivity
  have h1 : ((a * 10 ^ d : ℤ) : ℝ) ≤ x * 10 ^ d := by
    push_cast
    exact mul_le_mul_of_nonneg_right h (le_of_lt hp)
  have h2 : (a * 10 ^ d : ℤ) ≤ roundHalfEven (x * 10 ^ d) := le_roundHalfEven h1
  unfold npRound
  rw [le_div_iff₀ hp]
  calc (a : ℝ) * 10 ^ d = ((a * 10 ^ d : ℤ) : ℝ) := by push_cast; ring
  _ ≤ _ := by exact_mod_cast h2

lemma npRound_le (d : ℕ) (b : ℤ) (x : ℝ) (h : x ≤ (b : ℝ)) : npRound d x ≤ (b : ℝ) := by
  have hp : (0 : ℝ) < 10 ^ d := by positivity
  have h1 : x * 10 ^ d ≤ ((b * 10 ^ d : ℤ) : ℝ) := by
    push_cast
    exact mul_le_mul_of_nonneg_right h (le_of_lt hp)
  have h2 : roundHalfEven (x * 10 ^ d) ≤ (b * 10 ^ d : ℤ) := roundHalfEven_le h1
  unfold npRound
  rw [div_le_iff₀ hp]
  calc (roundHalfEven (x * 10 ^ d) : ℝ) ≤ ((b * 10 ^ d : ℤ) : ℝ) := by exact_mod_cast h2
  _ = (b : ℝ) * 10 ^ d := by push_cast; ring

lemma npRound_zero (d : ℕ) : npRound d 0 = 0 := by
  unfold npRound roundHalfEven
  norm_num

lemma clampTemp_mem (x : ℝ) : 17 ≤ clampTemp x ∧ clampTemp x ≤ 28 := by
  unfold clampTemp
  constructor
  · exact le_max_iff.mpr (Or.inl (by norm_num))
  · exact max_le (by norm_num) (min_le_iff.mpr (Or.inl (by norm_num)))

lemma tempStep_mem (g : ℕ → ℝ) (ts k : ℕ) :
    17 ≤ (tempStep g ts k).1 ∧ (tempStep g ts k).1 ≤ 28 := by
  unfold tempStep
  exact clampTemp_mem _

lemma luxStep_nonneg (g : ℕ → ℝ) (ts k : ℕ) : 0 ≤ (luxStep g ts k).1 := by
  unfold luxStep
  exact le_max_iff.mpr (Or.inl (by norm_num))

lemma luxStep_night (g : ℕ → ℝ) (ts k : ℕ) (h : is_night ts = true) :
    (luxStep g ts k).1 = 0 := by
  norm_num [luxStep, h]

lemma mapWithState_length {α : Type} (f : ℕ → ℕ → α × ℕ) :
    ∀ (l : List ℕ) (k : ℕ), (mapWithState f l k).1.length = l.length
  | [], _ => rfl
  | ts :: l, k => by simp [mapWithState, mapWithState_length f l]

lemma exists_of_mem_zip_mapWithState {α : Type} (f : ℕ → ℕ → α × ℕ) :
    ∀ (l : List ℕ) (k : ℕ) (p : ℕ × α),
      p ∈ l.zip (mapWithState f l k).1 → ∃ j, p.2 = (f p.1 j).1
  | [], _, p, h => by simp [mapWithState] at h
  | t :: l, k, p, h => by
    simp only [mapWithState, List.zip_cons_cons, List.mem_cons] at h
    rcases h with h | h
    · cases h
      exact ⟨k, rfl⟩
    · exact exists_of_mem_zip_mapWithState f l (f t k).2 p h

/-- Claim C3: every value in a temperature frame — clamped to `[17, 28]`
then rounded to 2 decimals — lies between `17.0` and `28.0`, for every
room, timestamp and outcome of the random draws. -/
theorem temp_rows_in_range (g : ℕ → ℝ) (grid : List ℕ) (k room : ℕ) (row : Row)
    (h : row ∈ df_temp room grid g k) : 17 ≤ row.valor ∧ row.valor ≤ 28 := by
  simp only [df_temp, List.mem_map] at h
  obtain ⟨p, hp, rfl⟩ := h
  obtain ⟨j, hj⟩ := exists_of_mem_zip_mapWithState (tempStep g) grid k p hp
  obtain ⟨h17, h28⟩ := tempStep_mem g p.1 j
  constructor
  · have := le_npRound 2 17 p.2 (by rw [hj]; exact_mod_cast h17)
    exact_mod_cast this
  · have := npRound_le 2 28 p.2 (by rw [hj]; exact_mod_cast h28)
    exact_mod_cast this

/-- Witness for C3: the temperature row of timestamp 0 in a one-point grid
with the all-zero draw stream. -/
theorem temp_rows_in_range_witness :
    17 ≤ npRound 2 ((tempStep (fun _ => 0) 0 0).1) ∧
    npRound 2 ((tempStep (fun _ => 0) 0 0).1) ≤ 28 :=
  temp_rows_in_range (fun _ => 0) [0] 0 1
    ⟨0, "temp_" ++ toString 1, npRound 2 ((tempStep (fun _ => 0) 0 0).1)⟩
    (by simp [df_temp, mapWithState])

/-- Claim C1 (amended): every illuminance row value is nonnegative, and
every night timestamp yields exactly 0; the converse fails — a non-night
sample is also 0 whenever its noise draw drives the base to 0 or below. -/
theorem lux_rows_nonneg_and_night_zero (g : ℕ → ℝ) (grid : List ℕ) (k room : ℕ)
    (row : Row) (h : row ∈ df_lux room grid g k) :
    0 ≤ row.valor ∧ (is_night row.ts = true → row.valor = 0) := by
  simp only [df_lux, List.mem_map] at h
  obtain ⟨p, hp, rfl⟩ := h
  obtain ⟨j, hj⟩ := exists_of_mem_zip_mapWithState (luxStep g) grid k p hp
  constructor
  · have := le_npRound 1 0 p.2
      (by rw [hj]; exact_mod_cast luxStep_nonneg g p.1 j)
    exact_mod_cast this
  · intro hn
    have h0 : p.2 = 0 := by rw [hj]; exact luxStep_night g p.1 j hn
    rw [h0, npRound_zero]

/-- Witness for C1: the illuminance row of night timestamp 0 in a
one-point grid with the all-zero draw stream is nonnegative and equals 0. -/
theorem lux_rows_nonneg_and_night_zero_witness :
    0 ≤ npRound 1 ((luxStep (fun _ => 0) 0 0).1) ∧
    npRound 1 ((luxStep (fun _ => 0) 0 0).1) = 0 :=
  ⟨(lux_rows_nonneg_and_night_zero (fun _ => 0) [0] 0 1
      ⟨0, "lux_" ++ toString 1, npRound 1 ((luxStep (fun _ => 0) 0 0).1)⟩
      (by simp [df_lux, mapWithState])).1,
    (lux_rows_nonneg_and_night_zero (fun _ => 0) [0] 0 1
      ⟨0, "lux_" ++ toString 1, npRound 1 ((luxStep (fun _ => 0) 0 0).1)⟩
      (by simp [df_lux, mapWithState])).2 (by decide)⟩

/-- Counterexample to C1 as stated: at timestamp 360 (Monday 06:00, not
night, outside work hours) a noise draw of −50 makes the emitted
illuminance exactly 0, so a zero value does not imply night. -/
theorem lux_zero_at_non_night :
    is_night 360 = false ∧
    npRound 1 ((luxStep (fun _ => (-50 : ℝ)) 360 0).1) = 0 := by
  constructor
  · decide
  · have h1 : (luxStep (fun _ => (-50 : ℝ)) 360 0).1 = 0 := by
      have hn : is_night 360 = false := by decide
      have hw : is_work_hour 360 = false := by decide
      norm_num [luxStep, hn, hw]
    rw [h1, npRound_zero]

/-- Claim C7: a 7-day run over 3 rooms and 3 sensor types produces exactly
6048 rows: 672 timestamps per (room, sensor type) pair. -/
theorem mainTable_length (rngOf : ℕ → ℕ → ℝ) (start : ℕ) :
    (mainTable rngOf start).length = 6048 := by
  simp [mainTable, simulate_for_room, df_temp, df_lux, df_occ,
        List.length_zip, mapWithState_length, length_generate_time_index]

/-- Claim C2 (code-bug evidence): the baseline is the daily sinusoid
centered at 22.5 with amplitude 2.5 and sine argument offset by `-π/2`,
but that phase shift puts the daily peak at 12:00 (minute-of-day 720),
not near 15:00: the baseline attains its maximum value 25 at noon,
every timestamp's baseline is at most 25, and at 15:00 (minute-of-day
900) the baseline is strictly below the noon value. -/
theorem baselineTemp_peak_at_noon :
    baselineTemp 720 = 25 ∧
    (∀ ts : ℕ, baselineTemp ts ≤ 25) ∧
    baselineTemp 900 < baselineTemp 720 := by
  have h720 : baselineTemp 720 = 25 := by
    have harg : (((hour 720 * 60 + minute 720 : ℕ) : ℝ) / (24 * 60)) * (2 * π) - π / 2 =
        π / 2 := by
      norm_num [hour, minute]
      ring
    unfold baselineTemp
    rw [harg, Real.sin_pi_div_two]
    norm_num
  have hub : ∀ ts : ℕ, baselineTemp ts ≤ 25 := by
    intro ts
    unfold baselineTemp
    nlinarith [Real.sin_le_one
      ((((hour ts * 60 + minute ts : ℕ) : ℝ) / (24 * 60)) * (2 * π) - π / 2)]
  have h900 : baselineTemp 900 < 25 := by
    have harg : (((hour 900 * 60 + minute 900 : ℕ) : ℝ) / (24 * 60)) * (2 * π) - π / 2 =
        π - π / 4 := by
      norm_num [hour, minute]
      ring
    unfold baselineTemp
    rw [harg, Real.sin_pi_sub, Real.sin_pi_div_four]
    have hs : Real.sqrt 2 < 2 := by
      nlinarith [Real.sq_sqrt (show (0 : ℝ) ≤ 2 by norm_num), Real.sqrt_nonneg 2]
    linarith
  exact ⟨h720, hub, by rw [h720]; exact h900⟩

/-- The occupancy probability schedule exactly as the specification states
it: weekdays use 0.85 / 0.35 / 0.05 by hour band; weekends use 0.03 except
that a secondary draw below 0.06 during hours `[10, 14)` overrides it
to 0.7. -/
noncomputable def occProbSpec (ts : ℕ) (spike : ℝ) : ℝ :=
  if weekday ts < 5 then
    if 8 ≤ hour ts ∧ hour ts < 18 then 0.85
    else if (7 ≤ hour ts ∧ hour ts < 8) ∨ (18 ≤ hour ts ∧ hour ts < 19) then 0.35
    else 0.05
  else if 10 ≤ hour ts ∧ hour ts < 14 ∧ spike < 0.06 then 0.7
  else 0.03

/-- Index of the uniform draw an occupancy sample is compared against: the
secondary spike draw is consumed first exactly on weekends with hour in
`[10, 14)`. -/
def occDrawIndex (ts k : ℕ) : ℕ :=
  if 5 ≤ weekday ts ∧ 10 ≤ hour ts ∧ hour ts < 14 then k + 1 else k

lemma occStep_eq (g : ℕ → ℝ) (ts k : ℕ) :
    occStep g ts k =
      (if g (occDrawIndex ts k) < occProbSpec ts (g k) then 1 else 0,
        occDrawIndex ts k + 1) := by
  by_cases h5 : weekday ts < 5
  · have hns : ¬(5 ≤ weekday ts ∧ 10 ≤ hour ts ∧ hour ts < 14) := by omega
    simp only [occStep, occProbSpec, occDrawIndex, if_pos h5, if_neg hns]
  · have h5l : 5 ≤ weekday ts := by omega
    by_cases hh : 10 ≤ hour ts ∧ hour ts < 14
    · have hsp : 5 ≤ weekday ts ∧ 10 ≤ hour ts ∧ hour ts < 14 := ⟨h5l, hh.1, hh.2⟩
      by_cases hd : g k < 0.06
      · simp only [occStep, occProbSpec, occDrawIndex, if_neg h5, if_pos hsp, if_pos hd,
          if_pos (show 10 ≤ hour ts ∧ hour ts < 14 ∧ g k < 0.06 from ⟨hh.1, hh.2, hd⟩)]
      · simp only [occStep, occProbSpec, occDrawIndex, if_neg h5, if_pos hsp, if_neg hd,
          if_neg (show ¬(10 ≤ hour ts ∧ hour ts < 14 ∧ g k < 0.06) from fun hc => hd hc.2.2)]
    · have hns : ¬(5 ≤ weekday ts ∧ 10 ≤ hour ts ∧ hour ts < 14) := fun hc => hh ⟨hc.2.1, hc.2.2⟩
      simp only [occStep, occProbSpec, occDrawIndex, if_neg h5, if_neg hns,
        if_neg (show ¬(10 ≤ hour ts ∧ hour ts < 14 ∧ g k < 0.06) from fun hc => hh ⟨hc.1, hc.2.1⟩)]

lemma occStep_val (g : ℕ → ℝ) (ts k : ℕ) :
    (occStep g ts k).1 = 0 ∨ (occStep g ts k).1 = 1 := by
  rw [occStep_eq]
  split
  · right; rfl
  · left; rfl

/-- Claim C6: every occupancy row value is 0 or 1, and an occupancy sample
is 1 exactly when the final uniform draw is below the resolved probability
`occProbSpec` — the weekday 0.85 / 0.35 / 0.05 schedule, weekend 0.03 with
the secondary-draw override to 0.7 for hours in `[10, 14)` — with the
secondary draw consumed before the main draw exactly on weekend spike
hours. -/
theorem occ_value_binary_and_draw_rule :
    (∀ (g : ℕ → ℝ) (grid : List ℕ) (k room : ℕ) (row : Row),
        row ∈ df_occ room grid g k → row.valor = 0 ∨ row.valor = 1) ∧
    (∀ (g : ℕ → ℝ) (ts k : ℕ),
        (occStep g ts k).2 = occDrawIndex ts k + 1 ∧
        ((occStep g ts k).1 = 1 ↔ g (occDrawIndex ts k) < occProbSpec ts (g k)) ∧
        ((occStep g ts k).1 = 0 ∨ (occStep g ts k).1 = 1)) := by
  constructor
  · intro g grid k room row h
    simp only [df_occ, List.mem_map] at h
    obtain ⟨p, hp, rfl⟩ := h
    obtain ⟨j, hj⟩ := exists_of_mem_zip_mapWithState (occStep g) grid k p hp
    rcases occStep_val g p.1 j with h0 | h1
    · left
      simp [hj, h0]
    · right
      simp [hj, h1]
  · intro g ts k
    refine ⟨by rw [occStep_eq], ?_, occStep_val g ts k⟩
    by_cases hc : g (occDrawIndex ts k) < occProbSpec ts (g k)
    · simp [occStep_eq, if_pos hc, hc]
    · simp [occStep_eq, if_neg hc, hc]

/-- Witness for C6: the occupancy row of timestamp 0 in a one-point grid
with the constant-one draw stream (draw 1 is not below probability 0.05,
so the flag is 0). -/
theorem occ_value_binary_witness :
    ((occStep (fun _ => (1 : ℝ)) 0 0).1 : ℝ) = 0 ∨
    ((occStep (fun _ => (1 : ℝ)) 0 0).1 : ℝ) = 1 :=
  occ_value_binary_and_draw_rule.1 (fun _ => (1 : ℝ)) [0] 0 1
    ⟨0, "occ_" ++ toString 1, ((occStep (fun _ => (1 : ℝ)) 0 0).1 : ℝ)⟩
    (by simp [df_occ, mapWithState])

lemma rowLE_trans (a b c : Row) : rowLE a b → rowLE b c → rowLE a c := by
  simp only [rowLE, Bool.or_eq_true, Bool.and_eq_true, decide_eq_true_eq]
  rintro (h1 | ⟨h1, h1s⟩) (h2 | ⟨h2, h2s⟩)
  · exact Or.inl (lt_trans h1 h2)
  · exact Or.inl (h2 ▸ h1)
  · exact Or.inl (h1 ▸ h2)
  · exact Or.inr ⟨h1.trans h2, le_trans h1s h2s⟩

lemma rowLE_total (a b : Row) : (rowLE a b || rowLE b a) = true := by
  simp only [rowLE, Bool.or_eq_true, Bool.and_eq_true, decide_eq_true_eq]
  rcases Nat.lt_trichotomy a.ts b.ts with h | h | h
  · exact Or.inl (Or.inl h)
  · rcases le_total a.sensor_id b.sensor_id with hs | hs
    · exact Or.inl (Or.inr ⟨h, hs⟩)
    · exact Or.inr (Or.inr ⟨h.symm, hs⟩)
  · exact Or.inr (Or.inl h)

/-- Claim C8: the final table is sorted primarily by timestamp and
secondarily by lexicographic sensor identifier — for any two rows, the
earlier one has a strictly smaller timestamp or the same timestamp and a
`≤` sensor identifier. -/
theorem mainTable_sorted (rngOf : ℕ → ℕ → ℝ) (start : ℕ) :
    List.Pairwise
      (fun a b : Row => a.ts < b.ts ∨ (a.ts = b.ts ∧ a.sensor_id ≤ b.sensor_id))
      (mainTable rngOf start) := by
  have h := @List.sorted_mergeSort Row rowLE
    (fun a b c => rowLE_trans a b c) (fun a b => rowLE_total a b)
    (([1, 2, 3].map
      (fun room => simulate_for_room rngOf room (generate_time_index start 7) 2025)).flatten)
  refine List.Pairwise.imp ?_ h
  intro a b hab
  simpa only [rowLE, Bool.or_eq_true, Bool.and_eq_true, decide_eq_true_eq] using hab

/-- Claim C5: determinism as a two-run property — with the seeded random
generator modelled as a pure function of its seed, two runs with the same
base seed, the same explicit start instant and the same day count produce
the same table row for row, whatever the ambient clock reads in either
run. -/
theorem mainModel_deterministic (rngOf : ℕ → ℕ → ℝ) (now₁ now₂ start : ℕ) :
    mainModel rngOf now₁ (some start) = mainModel rngOf now₂ (some start) := rfl

lemma mapWithState_mono {α : Type} (f : ℕ → ℕ → α × ℕ)
    (hm : ∀ ts k, k ≤ (f ts k).2) :
    ∀ (l : List ℕ) (k : ℕ), k ≤ (mapWithState f l k).2
  | [], k => le_refl k
  | t :: l, k => le_trans (hm t k) (mapWithState_mono f hm l (f t k).2)

lemma mapWithState_congr {α : Type} (F : (ℕ → ℝ) → ℕ → ℕ → α × ℕ) (g g' : ℕ → ℝ)
    (hm : ∀ ts k, k ≤ (F g ts k).2)
    (hf : ∀ ts k, (∀ i, k ≤ i → i < (F g ts k).2 → g i = g' i) → F g' ts k = F g ts k) :
    ∀ (l : List ℕ) (k : ℕ),
      (∀ i, k ≤ i → i < (mapWithState (F g) l k).2 → g i = g' i) →
      mapWithState (F g') l k = mapWithState (F g) l k
  | [], _, _ => rfl
  | t :: l, k, hag => by
    have hmono : (F g t k).2 ≤ (mapWithState (F g) l (F g t k).2).2 :=
      mapWithState_mono (F g) hm l (F g t k).2
    have hend : (mapWithState (F g) (t :: l) k).2 = (mapWithState (F g) l (F g t k).2).2 := rfl
    have hstep : F g' t k = F g t k :=
      hf t k (fun i h1 h2 => hag i h1 (by rw [hend]; exact lt_of_lt_of_le h2 hmono))
    have hrest : mapWithState (F g') l (F g t k).2 = mapWithState (F g) l (F g t k).2 :=
      mapWithState_congr F g g' hm hf l (F g t k).2
        (fun i h1 h2 => hag i (le_trans (hm t k) h1) (by rw [hend]; exact h2))
    show mapWithState (F g') (t :: l) k = mapWithState (F g) (t :: l) k
    simp only [mapWithState]
    rw [hstep, hrest]

lemma tempStep_mono (g : ℕ → ℝ) (ts k : ℕ) : k ≤ (tempStep g ts k).2 := by
  cases hw : is_work_hour ts <;> cases hn : is_night ts <;> simp [tempStep, hw, hn] <;> omega

lemma tempStep_frame (g g' : ℕ → ℝ) (ts k : ℕ)
    (hag : ∀ i, k ≤ i → i < (tempStep g ts k).2 → g i = g' i) :
    tempStep g' ts k = tempStep g ts k := by
  cases hw : is_work_hour ts <;> cases hn : is_night ts
  · have hend : (tempStep g ts k).2 = k + 1 := by simp [tempStep, hw, hn]
    rw [hend] at hag
    have e1 : g' k = g k := (hag k le_rfl (by omega)).symm
    simp [tempStep, hw, hn, e1]
  · have hend : (tempStep g ts k).2 = k + 2 := by simp [tempStep, hw, hn]
    rw [hend] at hag
    have e1 : g' k = g k := (hag k le_rfl (by omega)).symm
    have e2 : g' (k + 1) = g (k + 1) := (hag (k + 1) (by omega) (by omega)).symm
    simp [tempStep, hw, hn, e1, e2]
  · have hend : (tempStep g ts k).2 = k + 2 := by simp [tempStep, hw, hn]
    rw [hend] at hag
    have e1 : g' k = g k := (hag k le_rfl (by omega)).symm
    have e2 : g' (k + 1) = g (k + 1) := (hag (k + 1) (by omega) (by omega)).symm
    simp [tempStep, hw, hn, e1, e2]
  · have hend : (tempStep g ts k).2 = k + 3 := by simp [tempStep, hw, hn]
    rw [hend] at hag
    have e1 : g' k = g k := (hag k le_rfl (by omega)).symm
    have e2 : g' (k + 1) = g (k + 1) := (hag (k + 1) (by omega) (by omega)).symm
    have e3 : g' (k + 2) = g (k + 2) := (hag (k + 2) (by omega) (by omega)).symm
    simp [tempStep, hw, hn, e1, e2, e3]

lemma luxStep_mono (g : ℕ → ℝ) (ts k : ℕ) : k ≤ (luxStep g ts k).2 := by
  cases hn : is_night ts <;> cases hw : is_work_hour ts <;> simp [luxStep, hn, hw]

lemma luxStep_frame (g g' : ℕ → ℝ) (ts k : ℕ)
    (hag : ∀ i, k ≤ i → i < (luxStep g ts k).2 → g i = g' i) :
    luxStep g' ts k = luxStep g ts k := by
  cases hn : is_night ts
  · cases hw : is_work_hour ts
    · have hend : (luxStep g ts k).2 = k + 1 := by simp [luxStep, hn, hw]
      rw [hend] at hag
      have e1 : g' k = g k := (hag k le_rfl (by omega)).symm
      simp [luxStep, hn, hw, e1]
    · have hend : (luxStep g ts k).2 = k + 1 := by simp [luxStep, hn, hw]
      rw [hend] at hag
      have e1 : g' k = g k := (hag k le_rfl (by omega)).symm
      simp [luxStep, hn, hw, e1]
  · simp [luxStep, hn]

lemma occStep_mono (g : ℕ → ℝ) (ts k : ℕ) : k ≤ (occStep g ts k).2 := by
  rw [occStep_eq]
  unfold occDrawIndex
  split_ifs <;> simp <;> omega

lemma occStep_frame (g g' : ℕ → ℝ) (ts k : ℕ)
    (hag : ∀ i, k ≤ i → i < (occStep g ts k).2 → g i = g' i) :
    occStep g' ts k = occStep g ts k := by
  by_cases hsp : 5 ≤ weekday ts ∧ 10 ≤ hour ts ∧ hour ts < 14
  · have hend : (occStep g ts k).2 = k + 2 := by
      rw [occStep_eq]
      simp [occDrawIndex, hsp]
    rw [hend] at hag
    have e1 : g' k = g k := (hag k le_rfl (by omega)).symm
    have e2 : g' (k + 1) = g (k + 1) := (hag (k + 1) (by omega) (by omega)).symm
    simp [occStep, hsp, e1, e2]
  · have hend : (occStep g ts k).2 = k + 1 := by
      rw [occStep_eq]
      simp [occDrawIndex, hsp]
    rw [hend] at hag
    have e1 : g' k = g k := (hag k le_rfl (by omega)).symm
    simp [occStep, hsp, e1]

/-- Claim C9: each room is driven by a single stream seeded with
`seed_base + room_id` — the room's output depends on nothing but that one
stream (and the grid), distinct rooms use distinct seeds, and the three
models consume the stream sequentially: the full temperature pass reads
only draws below `tempEnd`, and the temperature-then-illuminance passes
read only draws below `luxEnd`, after which the occupancy pass starts. -/
theorem simulate_for_room_stream_structure :
    (∀ (rngOf rngOf' : ℕ → ℕ → ℝ) (room grid sb),
        rngOf (sb + room) = rngOf' (sb + room) →
        simulate_for_room rngOf room grid sb = simulate_for_room rngOf' room grid sb) ∧
    (∀ sb r r' : ℕ, r ≠ r' → sb + r ≠ sb + r') ∧
    (∀ (g g' : ℕ → ℝ) (grid : List ℕ),
        (∀ i, i < tempEnd g grid → g i = g' i) →
        mapWithState (tempStep g') grid 0 = mapWithState (tempStep g) grid 0) ∧
    (∀ (g g' : ℕ → ℝ) (grid : List ℕ),
        (∀ i, i < luxEnd g grid → g i = g' i) →
        mapWithState (luxStep g') grid (tempEnd g grid) =
          mapWithState (luxStep g) grid (tempEnd g grid) ∧
        luxEnd g' grid = luxEnd g grid) := by
  refine ⟨?_, ?_, ?_, ?_⟩
  · intro rngOf rngOf' room grid sb h
    simp only [simulate_for_room, h]
  · intro sb r r' h
    omega
  · intro g g' grid hag
    exact mapWithState_congr tempStep g g' (tempStep_mono g)
      (fun ts k h => tempStep_frame g g' ts k h) grid 0 (fun i _ h2 => hag i h2)
  · intro g g' grid hag
    have h1 : mapWithState (luxStep g') grid (tempEnd g grid) =
        mapWithState (luxStep g) grid (tempEnd g grid) :=
      mapWithState_congr luxStep g g' (luxStep_mono g)
        (fun ts k h => luxStep_frame g g' ts k h) grid (tempEnd g grid)
        (fun i _ h2 => hag i h2)
    refine ⟨h1, ?_⟩
    have htmp : mapWithState (tempStep g') grid 0 = mapWithState (tempStep g) grid 0 := by
      apply mapWithState_congr tempStep g g' (tempStep_mono g)
        (fun ts k h => tempStep_frame g g' ts k h) grid 0
      intro i _ h2
      exact hag i
        (lt_of_lt_of_le h2 (mapWithState_mono (luxStep g) (luxStep_mono g) grid (tempEnd g grid)))
    have hteq : tempEnd g' grid = tempEnd g grid := by
      unfold tempEnd
      rw [htmp]
    unfold luxEnd
    rw [hteq, h1]

/-- Witness for C9: room 1's simulation over the empty grid is invariant
under replacing the stream family by itself, and seeds of rooms 1 and 2
differ. -/
theorem simulate_for_room_stream_structure_witness :
    simulate_for_room (fun _ _ => 0) 1 [] 2025 = simulate_for_room (fun _ _ => 0) 1 [] 2025 ∧
    2025 + 1 ≠ 2025 + 2 :=
  ⟨simulate_for_room_stream_structure.1 (fun _ _ => 0) (fun _ _ => 0) 1 [] 2025 rfl,
    simulate_for_room_stream_structure.2.1 2025 1 2 (by decide)⟩

end SmartOffice
